import Mathlib

/-!
Verification development for `sync_option_a.py` (mbss-healthcards).

The script copies a locally exported folder of HTML health-card reports,
images and geodata into a static-site repository layout.  The definitions
below are a shallow embedding of the pure core of that script:

* `patch_img_paths_to_healthcards_folder` — the two `re.sub` rewrites of
  `img ... src` attribute values (lines 191-208 of the source);
* `searchSiteyr` / `out_name` — the SITEYR extraction regex and the output
  file naming (lines 122-124 and 282-284);
* `find_one_healthcard_html` / `chooseMode` — report discovery and the
  single-site vs multi-site branch (lines 100-114 and 274-276, 325);
* `write_sites_geojson` / `geoOutcome` — the geojson materialization logic
  (lines 211-225, 316-323 and 340-354);
* `copy_file` — the copy helper (lines 78-91), modeled by the number of
  copy attempts and sleeps it performs and the error it surfaces.

Modelling conventions: strings are `List Char`; Python `re` character
classes `\s`, `\d`, `\w` and `IGNORECASE` are modeled on ASCII, which is
exact for every string appearing in the source patterns and in the
theorems below; `os.path.basename` follows the posix rule (suffix after
the last slash); filesystem state is replaced by an explicit bundle of
source files (`SrcFile`, listed in recursive-traversal order) and by
explicit outcome values describing what the run writes.
-/

/-! ### Small string helpers -/

/-- Python whitespace class `\s` (ASCII part). -/
def isWsPy (c : Char) : Bool :=
  c = ' ' || c = '\t' || c = '\n' || c = '\r' || c = '\x0b' || c = '\x0c'

/-- Case-insensitive literal matcher: consume `pat` (up to ASCII case) from
the front of the text, returning the remainder.  Implements matching of the
literal parts of an `re.IGNORECASE` pattern. -/
def litCI : List Char → List Char → Option (List Char)
  | [], s => some s
  | _ :: _, [] => none
  | p :: ps, c :: cs => if p.toLower = c.toLower then litCI ps cs else none

/-- `os.path.basename` (posix): everything after the last slash. -/
def pyBasename (p : List Char) : List Char :=
  (p.reverse.takeWhile (fun c => c ≠ '/')).reverse

/-- The lazy group `(.*?)` of the img patterns followed by the closing quote
`q`: the value runs to the first occurrence of `q`, cannot contain a
newline (`.` does not match `\n`), and the remainder after the quote is
returned. -/
def lazyValue (q : Char) : List Char → Option (List Char × List Char)
  | [] => none
  | c :: t =>
    if c = q then some ([], t)
    else if c = '\n' then none
    else
      match lazyValue q t with
      | some (v, r) => some (c :: v, r)
      | none => none

/-- The tail `src\s*=\s*q(.*?)q` of the img patterns (with `q` the quote
character): literal `src` (case-insensitive), optional whitespace, `=`,
optional whitespace, the opening quote, then the lazy value.  The `\s*`
repetitions are deterministic because `=` and the quotes are not
whitespace. -/
def srcEqQuote (q : Char) (s : List Char) : Option (List Char × List Char) :=
  match litCI (("src").data) s with
  | none => none
  | some r1 =>
    match r1.dropWhile isWsPy with
    | '=' :: r2 =>
      match r2.dropWhile isWsPy with
      | c :: r3 => if c = q then lazyValue q r3 else none
      | [] => none
    | _ => none

/-- Backtracking for the greedy group `([^>]+)`: `g1rev` is the reversed
longest candidate (the maximal run of non-`>` characters), `rest` the text
after it.  Longer candidates are tried first, exactly as a backtracking
greedy `+` does; the group must be nonempty. -/
def tryG1 (q : Char) : List Char → List Char → Option (List Char × List Char × List Char)
  | [], _ => none
  | c :: g1rev, rest =>
    match srcEqQuote q rest with
    | some (v, r) => some ((c :: g1rev).reverse, v, r)
    | none => tryG1 q g1rev (c :: rest)

/-- Try to match `<img([^>]+)src\s*=\s*q(.*?)q` (IGNORECASE) at the start of
`s`.  On success returns (group 1, group 2, text after the match). -/
def matchImgAt (q : Char) (s : List Char) : Option (List Char × List Char × List Char) :=
  match litCI (("<img").data) s with
  | none => none
  | some rest =>
    let run := rest.takeWhile (fun c => c ≠ '>')
    tryG1 q run.reverse (rest.drop run.length)

/-- One global `re.sub` pass for quote character `q`: scan left to right,
replace each match by `<img` + group1 + `src=` + quote + basename(group2) +
quote (the replacement used at lines 206-207), and continue after the
match.  `fuel` bounds the scan; every step consumes at least one character,
so `s.length` fuel is always enough. -/
def subImgAux (q : Char) : Nat → List Char → List Char
  | 0, s => s
  | _ + 1, [] => []
  | fuel + 1, c :: t =>
    match matchImgAt q (c :: t) with
    | some (g1, v, rest) =>
      (("<img").data) ++ g1 ++ (("src=").data) ++ q :: (pyBasename v ++ q :: subImgAux q fuel rest)
    | none => c :: subImgAux q fuel t

/-- `re.sub` of one img pattern over the whole text. -/
def subImg (q : Char) (s : List Char) : List Char := subImgAux q s.length s

/-- Lines 191-208: rewrite img src attributes, double-quoted pattern first,
then single-quoted pattern.  (The inner helper `repl` of the Python
function, which would skip `http`/`data:` values, is defined but never
used there; the two `re.sub` calls rewrite every matched value.) -/
def patch_img_paths_to_healthcards_folder (s : List Char) : List Char :=
  subImg '\x27' (subImg '\x22' s)

/-! ### SITEYR extraction (lines 122-124) -/

/-- Character class `[A-Z0-9]`. -/
def isUpAl (c : Char) : Bool := ('A' ≤ c && c ≤ 'Z') || ('0' ≤ c && c ≤ '9')

/-- Character class `\d` (ASCII). -/
def isDigitC (c : Char) : Bool := '0' ≤ c && c ≤ '9'

/-- Character class `[A-Z]`. -/
def isUpperC (c : Char) : Bool := 'A' ≤ c && c ≤ 'Z'

/-- Python word character `\w` (ASCII), as used by `\b`. -/
def isWordC (c : Char) : Bool :=
  ('a' ≤ c && c ≤ 'z') || ('A' ≤ c && c ≤ 'Z') || ('0' ≤ c && c ≤ '9') || c = '_'

/-- Try to match `[A-Z0-9]{2,}-\d{1,4}-[A-Z]-\d{4}\b` at the start of `s`,
returning the matched token.  Both greedy repetitions are deterministic:
each must consume its maximal run, because the following literal `-` is in
neither class (a `\d` run longer than 4 can never be followed by `-` after
backtracking, so it fails).  The trailing `\b` requires the next character,
if any, to be a non-word character. -/
def siteyrHere (s : List Char) : Option (List Char) :=
  if (s.takeWhile isUpAl).length < 2 then none
  else
    match s.drop (s.takeWhile isUpAl).length with
    | '-' :: r1 =>
      if (r1.takeWhile isDigitC).length = 0 ∨ 4 < (r1.takeWhile isDigitC).length then none
      else
        match r1.drop (r1.takeWhile isDigitC).length with
        | '-' :: c :: '-' :: r2 =>
          if isUpperC c then
            if (r2.take 4).length = 4 ∧ (r2.take 4).all isDigitC then
              match r2.drop 4 with
              | [] =>
                some (s.takeWhile isUpAl ++
                  '-' :: (r1.takeWhile isDigitC ++ '-' :: c :: '-' :: r2.take 4))
              | nc :: _ =>
                if isWordC nc then none
                else
                  some (s.takeWhile isUpAl ++
                    '-' :: (r1.takeWhile isDigitC ++ '-' :: c :: '-' :: r2.take 4))
            else none
          else none
        | _ => none
    | _ => none

/-- The leading `\b` of the pattern: satisfied when there is no word
character immediately before the current position (the first matched
character is always a word character). -/
def noWordBefore : Option Char → Bool
  | none => true
  | some c => ! isWordC c

/-- `re.search` scan: try the pattern at each position, left to right,
carrying the previous character for the `\b` check. -/
def searchSiteyrAux : Option Char → List Char → Option (List Char)
  | prev, [] => if noWordBefore prev then siteyrHere [] else none
  | prev, c :: t =>
    match (if noWordBefore prev then siteyrHere (c :: t) else none) with
    | some tok => some tok
    | none => searchSiteyrAux (some c) t

/-- `re.search(r"\b([A-Z0-9]{2,}-\d{1,4}-[A-Z]-\d{4})\b", html_text)`,
returning group 1 of the first match (lines 122-124). -/
def searchSiteyr (s : List Char) : Option (List Char) := searchSiteyrAux none s

/-- Index-based view of one attempt: the `\b` boundary before position `i`
plus the pattern matcher on the suffix from `i`.  Stated independently of
the scanning order of `searchSiteyr`. -/
def boundaryBefore (s : List Char) (i : Nat) : Bool :=
  match i with
  | 0 => true
  | j + 1 => noWordBefore s[j]?

/-- The pattern attempt at position `i`. -/
def siteyrAt (s : List Char) (i : Nat) : Option (List Char) :=
  if boundaryBefore s i then siteyrHere (s.drop i) else none

/-- First match in document order, stated by scanning positions 0..length
through `List.range`: the specification-side formulation of "first match
in document order wins". -/
def firstSiteyr (s : List Char) : Option (List Char) :=
  (List.range (s.length + 1)).findSome? (siteyrAt s)

/-- The well-formed site identifier shape, in the words of the
specification: an uppercase alphanumeric token of at least 2 characters, a
numeric segment (1-4 digits), a single uppercase letter and a 4-digit
year, hyphen-delimited. -/
def SiteyrShape (tok : List Char) : Prop :=
  ∃ a d c y, tok = a ++ '-' :: (d ++ '-' :: c :: '-' :: y) ∧
    2 ≤ a.length ∧ (∀ x ∈ a, isUpAl x = true) ∧
    1 ≤ d.length ∧ d.length ≤ 4 ∧ (∀ x ∈ d, isDigitC x = true) ∧
    isUpperC c = true ∧ y.length = 4 ∧ (∀ x ∈ y, isDigitC x = true)

/-- Lines 282-284: destination filename — `<SITEYR>.html` when the field
was extracted (and, mirroring Python truthiness, nonempty), else the
timestamp fallback `SITE-<stamp>.html`; `stamp` is the invocation time
formatted at second resolution, passed in as a parameter. -/
def out_name (html stamp : List Char) : List Char :=
  match searchSiteyr html with
  | some s =>
    if s.isEmpty then ("SITE-").data ++ stamp ++ (".html").data
    else s ++ (".html").data
  | none => ("SITE-").data ++ stamp ++ (".html").data

/-! ### Substring tests (Python `in`) -/

/-- Bool test that `pat` is a prefix of `l`. -/
def startsWithL : List Char → List Char → Bool
  | [], _ => true
  | _ :: _, [] => false
  | p :: ps, c :: cs => p = c && startsWithL ps cs

/-- Python `pat in txt`: `pat` occurs contiguously in `l`. -/
def containsSub (pat : List Char) : List Char → Bool
  | [] => pat.isEmpty
  | c :: t => startsWithL pat (c :: t) || containsSub pat t

/-- Bool test that `post` is a suffix of `l` (used for `rglob("*.html")`,
whose name pattern accepts exactly the names ending in `.html`). -/
def endsWithL (post l : List Char) : Bool := startsWithL post.reverse l.reverse

/-! ### Discovery (lines 48-49, 100-114) and mode selection (lines 274-276) -/

/-- One file of the source export bundle: basename, whether it sits
directly at the bundle root, and its text content.  A bundle is the list
of all files in recursive traversal order. -/
structure SrcFile where
  name : String
  atRoot : Bool
  text : String
deriving DecidableEq, Repr

/-- Line 49. -/
def HTML_NAMES : List String :=
  ["HealthCard.html", "HealthCard.htm", "healthcard.html", "healthcard.htm"]

/-- Line 48 (image extension set). -/
def IMAGE_EXTS : List String := [".png", ".jpg", ".jpeg", ".svg", ".gif", ".webp"]

/-- Line 112: `"MBSS HealthCard" in txt or "BIBI" in txt and "FIBI" in txt
and "Watershed context" in txt` — by Python precedence, a disjunction of
the title marker with the conjunction of the three other tokens. -/
def isHealthcardText (txt : String) : Bool :=
  containsSub (("MBSS HealthCard").data) txt.data ||
    (containsSub (("BIBI").data) txt.data &&
     containsSub (("FIBI").data) txt.data &&
     containsSub (("Watershed context").data) txt.data)

/-- Lines 100-114: prefer a file with one of the exact canonical names at
bundle root; otherwise the first `*.html` file in traversal order whose
text looks like a healthcard; otherwise none. -/
def find_one_healthcard_html (b : List SrcFile) : Option SrcFile :=
  match HTML_NAMES.findSome? (fun n => b.find? (fun f => f.atRoot && f.name == n)) with
  | some f => some f
  | none =>
    (b.filter (fun f => endsWithL ((".html").data) f.name.data)).find?
      (fun f => isHealthcardText f.text)

/-- The two Materialization modes. -/
inductive SyncMode where
  | oneSite
  | multiSite
deriving DecidableEq, Repr

/-- Line 276: `if one_html is not None and one_html.name in HTML_NAMES:` —
single-site mode only when Discovery found a file AND its basename is one
of the canonical names; otherwise the multi-site branch at line 325. -/
def chooseMode (b : List SrcFile) : SyncMode :=
  match find_one_healthcard_html b with
  | some f => if HTML_NAMES.contains f.name then SyncMode.oneSite else SyncMode.multiSite
  | none => SyncMode.multiSite

/-! ### Multi-site copying (lines 329-338) -/

/-- `pathlib.PurePath.suffix`: the last dot-extension of a name, empty when
the last dot is leading or trailing or absent. -/
def pySuffix (n : List Char) : List Char :=
  let tl := (n.reverse.takeWhile (fun c => c ≠ '.')).reverse
  if tl.length = n.length then []
  else
    let i := n.length - tl.length - 1
    if 0 < i ∧ i < n.length - 1 then n.drop i else []

/-- ASCII lowercasing (`str.lower`). -/
def lowerL (l : List Char) : List Char := l.map Char.toLower

/-- Line 333: `p.suffix.lower() == ".html"`. -/
def isHtmlMulti (f : SrcFile) : Bool := lowerL (pySuffix f.name.data) == (".html").data

/-- Line 336: `p.suffix.lower() in IMAGE_EXTS`. -/
def isImgMulti (f : SrcFile) : Bool :=
  IMAGE_EXTS.contains (String.mk (lowerL (pySuffix f.name.data)))

/-- Basenames of the HTML files the multi-site branch copies into
`data/healthcards/` (destination names, in copy order). -/
def multiHtmlNames (b : List SrcFile) : List String :=
  (b.filter isHtmlMulti).map SrcFile.name

/-- `html_count` of the multi-site branch. -/
def htmlCount (b : List SrcFile) : Nat := (multiHtmlNames b).length

/-! ### Geospatial materialization (lines 211-225, 316-323, 340-354) -/

/-- A JSON property value as produced by `parse_basic_fields_from_html`
(strings or numbers). -/
inductive PropVal where
  | str (s : String)
  | num (q : ℚ)
deriving DecidableEq, Repr

/-- One GeoJSON feature as built at lines 212-222: a `Feature` object with
a properties mapping and a `Point` geometry whose coordinates list is
`[lon, lat]`. -/
structure Feature where
  ftype : String
  properties : List (String × PropVal)
  geomType : String
  coordinates : List ℚ
deriving DecidableEq, Repr

/-- The written FeatureCollection (line 223). -/
structure FeatureCollection where
  fcType : String
  features : List Feature
deriving DecidableEq, Repr

/-- Lines 211-225: the synthesized stub geojson.  The coordinate values are
passed through unchanged (`float(lon)`, `float(lat)` are identity on the
already-parsed numbers), longitude first; `HEALTHCARD_URL` is appended to
the extracted properties. -/
def write_sites_geojson (lat lon : ℚ) (props : List (String × PropVal))
    (healthcard_rel_url : String) : FeatureCollection :=
  { fcType := "FeatureCollection"
    features := [{ ftype := "Feature"
                   properties := props ++ [("HEALTHCARD_URL", PropVal.str healthcard_rel_url)]
                   geomType := "Point"
                   coordinates := [lon, lat] }] }

/-- Property lookup in a feature. -/
def lookupProp (f : Feature) (k : String) : Option PropVal :=
  (f.properties.find? (fun p => p.1 == k)).map Prod.snd

/-- What one run writes to the destination geospatial index
`data/sites.geojson`: nothing, a verbatim copy of the source record, or a
synthesized stub (the arguments later passed to `write_sites_geojson`). -/
inductive GeoWrite where
  | copied (content : String)
  | stub (lat lon : ℚ) (props : List (String × PropVal)) (url : String)
deriving DecidableEq, Repr

/-- The `SITEYR` entry of `parse_basic_fields_from_html` (lines 122-124),
the only extracted field that any claim below constrains; the remaining
fields of that function are independent pattern searches feeding only the
properties mapping. -/
def siteyrProps (html : List Char) : List (String × PropVal) :=
  match searchSiteyr html with
  | some s => [("SITEYR", PropVal.str (String.mk s))]
  | none => []

/-- Line 341: `src / "sites.geojson"` — the source record is looked up at
bundle root only. -/
def rootSitesGeojson (b : List SrcFile) : Option String :=
  (b.find? (fun f => f.atRoot && f.name == "sites.geojson")).map SrcFile.text

/-- Lines 340-354 (multi-site branch): copy a root `sites.geojson`
verbatim when present; else synthesize a minimal stub when both
coordinates were supplied (empty properties, URL pointing at the
timestamped name only when at least one HTML file was copied); else write
nothing (warnings only). -/
def multiGeo (b : List SrcFile) (lat lon : Option ℚ) (stamp : String) : Option GeoWrite :=
  match rootSitesGeojson b with
  | some g => some (GeoWrite.copied g)
  | none =>
    match lat, lon with
    | some la, some lo =>
      some (GeoWrite.stub la lo []
        ("data/healthcards/" ++ (if htmlCount b = 0 then "" else "SITE-" ++ stamp ++ ".html")))
    | _, _ => none

/-- Lines 316-323 and 340-354: the geospatial index write performed by one
run.  In the single-site branch a stub is synthesized exactly when both
`--lat` and `--lon` were given (a source `sites.geojson` is never
consulted there); otherwise nothing is written.  The multi-site branch is
`multiGeo`. -/
def geoOutcome (b : List SrcFile) (lat lon : Option ℚ) (stamp : String) : Option GeoWrite :=
  match find_one_healthcard_html b with
  | some f =>
    if HTML_NAMES.contains f.name then
      match lat, lon with
      | some la, some lo =>
        some (GeoWrite.stub la lo (siteyrProps f.text.data)
          ("data/healthcards/" ++ String.mk (out_name f.text.data stamp.data)))
      | _, _ => none
    else multiGeo b lat lon stamp
  | none => multiGeo b lat lon stamp

/-! ### copy_file (lines 78-91) -/

/-- Result of a `copy_file` call: success, or a propagated exception with
its message. -/
inductive CopyResult where
  | ok
  | raised (msg : String)
deriving DecidableEq, Repr

/-- Observable behavior of one `copy_file` call: how many times
`shutil.copy2` runs, how many `time.sleep` calls happen, and the result.
`samefile` is the source-equals-destination check of line 85; `destLocked`
says the destination is held by another process, in which case the single
`shutil.copy2` raises `lockErr`, which propagates unchanged. -/
structure CopyOutcome where
  copyAttempts : Nat
  sleepCalls : Nat
  result : CopyResult
deriving DecidableEq, Repr

/-- Lines 78-91: create the parent directory, skip when source and
destination are the same file, otherwise call `shutil.copy2` exactly once;
there is no retry loop, no sleep, and no message rewriting. -/
def copy_file (samefile destLocked : Bool) (lockErr : String) : CopyOutcome :=
  if samefile then { copyAttempts := 0, sleepCalls := 0, result := CopyResult.ok }
  else if destLocked then { copyAttempts := 1, sleepCalls := 0, result := CopyResult.raised lockErr }
  else { copyAttempts := 1, sleepCalls := 0, result := CopyResult.ok }

/-! ### Specification-side predicates and claim-side functions -/

/-- `siteyrAt` generalized with an explicit previous character for the
position-0 boundary; used to relate the left-to-right scan of
`searchSiteyr` to the index-based `firstSiteyr`. -/
def siteyrAtP (prev : Option Char) (t : List Char) (i : Nat) : Option (List Char) :=
  if (match i with
      | 0 => noWordBefore prev
      | j + 1 => noWordBefore t[j]?) then siteyrHere (t.drop i)
  else none

/-- `pat` occurs contiguously inside `s`. -/
def SubStr (pat s : List Char) : Prop := ∃ u v, s = u ++ pat ++ v

/-- The content signature of line 112, as a proposition: the title marker,
or all three of the index-name and watershed tokens together. -/
def ReportSignature (txt : String) : Prop :=
  SubStr (("MBSS HealthCard").data) txt.data ∨
    (SubStr (("BIBI").data) txt.data ∧ SubStr (("FIBI").data) txt.data ∧
     SubStr (("Watershed context").data) txt.data)

/-- No file at bundle root carries one of the four canonical names. -/
def CanonicalFree (b : List SrcFile) : Prop :=
  ∀ f ∈ b, ¬(f.atRoot = true ∧ f.name ∈ HTML_NAMES)

/-- Modelled from the words of claim C4, for comparison against the code:
first an exact case-insensitive match on the canonical report filenames at
bundle root; failing that, the first HTML file anywhere whose text
contains the human-readable title marker AND the two index-name tokens
together; failing that, none. -/
def discoveryClaim_C4 (b : List SrcFile) : Option SrcFile :=
  match b.find? (fun f => f.atRoot &&
      (lowerL f.name.data == (("healthcard.html").data) ||
       lowerL f.name.data == (("healthcard.htm").data))) with
  | some f => some f
  | none =>
    (b.filter (fun f => endsWithL ((".html").data) f.name.data)).find?
      (fun f => containsSub (("MBSS HealthCard").data) f.text.data &&
        containsSub (("BIBI").data) f.text.data &&
        containsSub (("FIBI").data) f.text.data)

/-! ### Helper lemmas -/

theorem mem_takeWhile_pred {α} {p : α → Bool} {l : List α} {x : α}
    (h : x ∈ l.takeWhile p) : p x = true := by
  induction l with
  | nil => simp [List.takeWhile_nil] at h
  | cons a t ih =>
    rw [List.takeWhile_cons] at h
    by_cases ha : p a = true
    · simp only [ha, if_true, List.mem_cons] at h
      rcases h with rfl | h
      · exact ha
      · exact ih h
    · simp [ha] at h

theorem find?_some_decomp {α} {p : α → Bool} :
    ∀ {l : List α} {a : α}, l.find? p = some a →
      p a = true ∧ ∃ l₁ l₂, l = l₁ ++ a :: l₂ ∧ ∀ x ∈ l₁, p x = false := by
  intro l
  induction l with
  | nil => intro a h; simp [List.find?] at h
  | cons c t ih =>
    intro a h
    by_cases hc : p c = true
    · rw [List.find?_cons_of_pos _ hc] at h
      cases h
      exact ⟨hc, [], t, rfl, by simp⟩
    · rw [List.find?_cons_of_neg _ (by simpa using hc)] at h
      obtain ⟨hpa, l₁, l₂, rfl, hall⟩ := ih h
      refine ⟨hpa, c :: l₁, l₂, rfl, ?_⟩
      intro x hx
      rcases List.mem_cons.mp hx with rfl | hx
      · simpa using hc
      · exact hall x hx

theorem find?_filter_eq {α} (p q : α → Bool) :
    ∀ l : List α, (l.filter p).find? q = l.find? (fun a => p a && q a) := by
  intro l
  induction l with
  | nil => rfl
  | cons c t ih =>
    rw [List.filter_cons]
    by_cases hc : p c = true
    · rw [if_pos hc]
      by_cases hq : q c = true
      · rw [List.find?_cons_of_pos _ hq, List.find?_cons_of_pos]
        simp [hc, hq]
      · rw [List.find?_cons_of_neg _ (by simpa using hq), List.find?_cons_of_neg, ih]
        simp [hq]
    · rw [if_neg hc, List.find?_cons_of_neg, ih]
      simp [hc]

theorem startsWithL_iff : ∀ (p l : List Char), startsWithL p l = true ↔ ∃ t, l = p ++ t := by
  intro p
  induction p with
  | nil => intro l; simp [startsWithL]
  | cons a ps ih =>
    intro l
    cases l with
    | nil =>
      simp only [startsWithL, List.cons_append]
      constructor
      · intro h; cases h
      · rintro ⟨t, ht⟩; cases ht
    | cons c cs =>
      simp only [startsWithL, Bool.and_eq_true, decide_eq_true_eq, List.cons_append,
        List.cons.injEq, ih cs]
      constructor
      · rintro ⟨rfl, t, rfl⟩; exact ⟨t, rfl, rfl⟩
      · rintro ⟨t, rfl, rfl⟩; exact ⟨rfl, t, rfl⟩

theorem containsSub_iff {pat : List Char} :
    ∀ {l : List Char}, containsSub pat l = true ↔ SubStr pat l := by
  intro l
  induction l with
  | nil =>
    simp only [containsSub, SubStr, List.isEmpty_iff]
    constructor
    · rintro rfl; exact ⟨[], [], rfl⟩
    · rintro ⟨u, v, huv⟩
      rcases List.append_eq_nil.mp (List.append_eq_nil.mp huv.symm).1 with ⟨-, h2⟩
      exact h2
  | cons c t ih =>
    simp only [containsSub, Bool.or_eq_true, startsWithL_iff, ih, SubStr]
    constructor
    · rintro (⟨u, hu⟩ | ⟨u, v, rfl⟩)
      · exact ⟨[], u, by simpa using hu⟩
      · exact ⟨c :: u, v, rfl⟩
    · rintro ⟨u, v, huv⟩
      cases u with
      | nil => exact Or.inl ⟨v, by simpa using huv⟩
      | cons u0 us =>
        right
        simp only [List.cons_append] at huv
        injection huv with h1 h2
        exact ⟨us, v, h2⟩

theorem endsWithL_iff (post l : List Char) :
    endsWithL post l = true ↔ ∃ u, l = u ++ post := by
  unfold endsWithL
  rw [startsWithL_iff]
  constructor
  · rintro ⟨t, h⟩
    refine ⟨t.reverse, ?_⟩
    have h2 := congrArg List.reverse h
    simpa using h2
  · rintro ⟨u, rfl⟩
    exact ⟨u.reverse, by simp⟩

theorem isHealthcardText_iff (txt : String) :
    isHealthcardText txt = true ↔ ReportSignature txt := by
  unfold isHealthcardText ReportSignature
  simp [containsSub_iff, and_assoc]

theorem siteyrAtP_shift (prev : Option Char) (c : Char) (t : List Char) (i : Nat) :
    siteyrAtP prev (c :: t) (i + 1) = siteyrAtP (some c) t i := by
  cases i with
  | zero => simp [siteyrAtP]
  | succ j => simp [siteyrAtP]

theorem searchSiteyrAux_eq (t : List Char) :
    ∀ prev, searchSiteyrAux prev t =
      (List.range (t.length + 1)).findSome? (siteyrAtP prev t) := by
  induction t with
  | nil =>
    intro prev
    have h1 : List.range (List.length ([] : List Char) + 1) = [0] := by decide
    rw [h1]
    have hnone : siteyrHere ([] : List Char) = none := by decide
    have hatp : siteyrAtP prev [] 0 = none := by
      unfold siteyrAtP
      cases hb : noWordBefore prev <;> simp [hb, hnone]
    have hL : searchSiteyrAux prev [] = none := by
      unfold searchSiteyrAux
      cases hb : noWordBefore prev <;> simp [hb, hnone]
    rw [hL, List.findSome?_cons_of_isNone]
    · rw [List.findSome?_nil]
    · rw [hatp]; rfl
  | cons c t ih =>
    intro prev
    simp only [List.length_cons]
    rw [List.range_succ_eq_map]
    have hstep : searchSiteyrAux prev (c :: t) =
        (match (if noWordBefore prev then siteyrHere (c :: t) else none) with
         | some tok => some tok
         | none => searchSiteyrAux (some c) t) := rfl
    have h0 : siteyrAtP prev (c :: t) 0 =
        (if noWordBefore prev then siteyrHere (c :: t) else none) := by
      simp [siteyrAtP]
    have hmap : (List.map Nat.succ (List.range (t.length + 1))).findSome?
          (siteyrAtP prev (c :: t)) =
        (List.range (t.length + 1)).findSome? (siteyrAtP (some c) t) := by
      rw [List.findSome?_map]
      have : siteyrAtP prev (c :: t) ∘ Nat.succ = siteyrAtP (some c) t := by
        funext i
        exact siteyrAtP_shift prev c t i
      rw [this]
    rw [hstep]
    cases hF : (if noWordBefore prev then siteyrHere (c :: t) else none) with
    | some tok =>
      have : List.findSome? (siteyrAtP prev (c :: t))
          (0 :: List.map Nat.succ (List.range (t.length + 1))) = some tok := by
        rw [List.findSome?_cons_of_isSome]
        · rw [h0, hF]
        · rw [h0, hF]; rfl
      rw [this]
    | none =>
      have : List.findSome? (siteyrAtP prev (c :: t))
          (0 :: List.map Nat.succ (List.range (t.length + 1))) =
          (List.map Nat.succ (List.range (t.length + 1))).findSome?
            (siteyrAtP prev (c :: t)) := by
        rw [List.findSome?_cons_of_isNone]
        rw [h0, hF]; rfl
      rw [this, hmap, ih]

theorem searchSiteyr_eq_firstSiteyr (s : List Char) : searchSiteyr s = firstSiteyr s := by
  unfold searchSiteyr firstSiteyr
  rw [searchSiteyrAux_eq s none]
  have : siteyrAtP none s = siteyrAt s := by
    funext i
    cases i with
    | zero => simp [siteyrAtP, siteyrAt, boundaryBefore, noWordBefore]
    | succ j => simp [siteyrAtP, siteyrAt, boundaryBefore]
  rw [this]

theorem siteyrHere_shape {s tok : List Char} (h : siteyrHere s = some tok) :
    SiteyrShape tok := by
  unfold siteyrHere at h
  split at h
  · cases h
  · rename_i hlen2
    split at h
    case _ r1 heq =>
      split at h
      · cases h
      · rename_i hdlen
        split at h
        case _ c r2 heq2 =>
          split at h
          · rename_i hupper
            split at h
            · rename_i hy
              split at h
              · rename_i hnil
                injection h with h'
                refine ⟨s.takeWhile isUpAl, r1.takeWhile isDigitC, c, r2.take 4,
                  h'.symm, ?_, ?_, ?_, ?_, ?_, hupper, hy.1, ?_⟩
                · omega
                · intro x hx; exact mem_takeWhile_pred hx
                · omega
                · omega
                · intro x hx; exact mem_takeWhile_pred hx
                · exact List.all_eq_true.mp hy.2
              · rename_i nc rest hcons
                split at h
                · cases h
                · injection h with h'
                  refine ⟨s.takeWhile isUpAl, r1.takeWhile isDigitC, c, r2.take 4,
                    h'.symm, ?_, ?_, ?_, ?_, ?_, hupper, hy.1, ?_⟩
                  · omega
                  · intro x hx; exact mem_takeWhile_pred hx
                  · omega
                  · omega
                  · intro x hx; exact mem_takeWhile_pred hx
                  · exact List.all_eq_true.mp hy.2
            · cases h
          · cases h
        case _ => cases h
    case _ => cases h

theorem SiteyrShape_ne_nil {tok : List Char} (h : SiteyrShape tok) :
    tok.isEmpty = false := by
  obtain ⟨a, d, c, y, rfl, ha2, -⟩ := h
  cases a with
  | nil => simp at ha2
  | cons x xs => rfl

theorem searchSiteyr_some_shape {s tok : List Char}
    (h : searchSiteyr s = some tok) : SiteyrShape tok := by
  rw [searchSiteyr_eq_firstSiteyr] at h
  unfold firstSiteyr at h
  obtain ⟨l₁, i, l₂, -, hf, -⟩ := List.findSome?_eq_some_iff.mp h
  unfold siteyrAt at hf
  split at hf
  · exact siteyrHere_shape hf
  · cases hf

/-! ### Claim theorems -/

/-- C1 (amended): the pipeline runs in single-report mode exactly when
Discovery finds a report document whose basename is one of the four
canonical names; a report found only by the content-signature heuristic
under a non-canonical basename is handled in multi-report mode. -/
theorem C1_mode_selection (b : List SrcFile) :
    chooseMode b = SyncMode.oneSite ↔
      ∃ f, find_one_healthcard_html b = some f ∧ f.name ∈ HTML_NAMES := by
  unfold chooseMode
  cases hf : find_one_healthcard_html b with
  | none =>
    constructor
    · intro h; cases h
    · rintro ⟨f, hf', -⟩; cases hf'
  | some f =>
    dsimp only
    by_cases hc : HTML_NAMES.contains f.name = true
    · rw [if_pos hc]
      exact ⟨fun _ => ⟨f, rfl, List.elem_iff.mp hc⟩, fun _ => rfl⟩
    · rw [if_neg hc]
      constructor
      · intro h; cases h
      · rintro ⟨f', hf', hmem⟩
        injection hf' with hff
        subst hff
        exact absurd (List.elem_iff.mpr hmem) hc

/-- C1 witness: a bundle with a canonical root report runs in
single-report mode, via the mode-selection characterization. -/
theorem C1_mode_selection_witness :
    chooseMode [⟨"HealthCard.html", true, "z"⟩] = SyncMode.oneSite :=
  (C1_mode_selection [⟨"HealthCard.html", true, "z"⟩]).mpr
    ⟨⟨"HealthCard.html", true, "z"⟩, by decide, by decide⟩

/-- C1 counterexample: Discovery finds a report document (the content
signature of `report.html` matches), yet the pipeline takes the
multi-report branch because the basename is not canonical — refuting
"multi-report mode is entered only when no report document is found at
all". -/
theorem C1_counterexample :
    find_one_healthcard_html [⟨"report.html", true, "MBSS HealthCard"⟩] =
        some ⟨"report.html", true, "MBSS HealthCard"⟩ ∧
      chooseMode [⟨"report.html", true, "MBSS HealthCard"⟩] = SyncMode.multiSite := by
  decide

/-- C2 (amended): the rewrite replaces every matched img src attribute
value by its basename — including absolute URLs and data URIs (the guard
that would skip them lives in an unused inner helper) — and normalizes
the matched `src = ` spelling to `src=`; markup outside the matched img
src segments is preserved.  Verified on a document with a relative path,
an absolute URL and a data URI, and on a single-quoted value with spaced
uppercase `SRC`. -/
theorem C2_rewrite_behavior :
    patch_img_paths_to_healthcards_folder
        (("<img src=\"imgs/a.png\"><img src=\"https://h.io/p/c.png\"><img src=\"data:image/png;base64,AA\">").data) =
      ("<img src=\"a.png\"><img src=\"c.png\"><img src=\"png;base64,AA\">").data ∧
    patch_img_paths_to_healthcards_folder (("<img SRC = \x27pics/b.png\x27 alt=\"x\">").data) =
      ("<img src=\x27b.png\x27 alt=\"x\">").data := by
  decide

/-- C2 counterexample: an absolute URL src value is rewritten to its
basename, refuting "never rewrites src values that are absolute URLs or
data URIs". -/
theorem C2_counterexample :
    patch_img_paths_to_healthcards_folder (("<img src=\"https://h.io/p/c.png\">").data) =
        ("<img src=\"c.png\">").data ∧
      patch_img_paths_to_healthcards_folder (("<img src=\"https://h.io/p/c.png\">").data) ≠
        ("<img src=\"https://h.io/p/c.png\">").data := by
  decide

/-- C5: the computed destination filename is `<identifier>.html` exactly
when the SITEYR search succeeds; the scan agrees with the index-based
first-match-in-document-order search, the returned identifier is a
well-formed site identifier (uppercase alphanumeric token of at least two
characters, a 1-4 digit numeric segment, a single uppercase letter and a
4-digit year, hyphen-delimited), and on failure the filename is the
timestamp fallback `SITE-<stamp>.html`. -/
theorem C5_destination_filename (html stamp : List Char) :
    searchSiteyr html = firstSiteyr html ∧
    (∀ s, searchSiteyr html = some s →
      SiteyrShape s ∧ out_name html stamp = s ++ ((".html").data)) ∧
    (searchSiteyr html = none →
      out_name html stamp = (("SITE-").data) ++ stamp ++ ((".html").data)) := by
  refine ⟨searchSiteyr_eq_firstSiteyr html, ?_, ?_⟩
  · intro s hs
    have hshape := searchSiteyr_some_shape hs
    refine ⟨hshape, ?_⟩
    unfold out_name
    rw [hs]
    simp [SiteyrShape_ne_nil hshape]
  · intro h
    unfold out_name
    rw [h]

/-- C5 witness: a concrete document containing `LMON-345-R-2016` yields
that identifier with the well-formed shape and the filename
`LMON-345-R-2016.html`. -/
theorem C5_destination_filename_witness :
    SiteyrShape (("LMON-345-R-2016").data) ∧
      out_name (("id LMON-345-R-2016 end").data) (("20250102030405").data) =
        (("LMON-345-R-2016").data) ++ ((".html").data) :=
  (C5_destination_filename (("id LMON-345-R-2016 end").data)
      (("20250102030405").data)).2.1 (("LMON-345-R-2016").data) (by decide)

/-- C9 (amended): path rewriting is not idempotent in general; a document
already in rewritten normal form with plain basename references is left
byte-identical. -/
theorem C9_flattened_fixed_point :
    patch_img_paths_to_healthcards_folder (("<img src=\"plot.png\"> done").data) =
      ("<img src=\"plot.png\"> done").data := by
  decide

/-- C9 counterexample: applying the rewrite twice differs from applying it
once.  On this input the first pass rewrites the inner single-quoted
value, which exposes a new double-quoted match whose value still contains
a slash, so the second pass rewrites again. -/
theorem C9_counterexample :
    patch_img_paths_to_healthcards_folder
        (patch_img_paths_to_healthcards_folder
          (("<img src = \"P src=\x27Q\"R/W\x27 Z/d.png\" end").data)) ≠
      patch_img_paths_to_healthcards_folder
        (("<img src = \"P src=\x27Q\"R/W\x27 Z/d.png\" end").data) := by
  decide

/-- C6: on a single-report bundle whose document contains the identifier
`LMON-345-R-2016`, supplying longitude -77.3092 and latitude 39.35986
synthesizes a stub whose FeatureCollection has exactly one feature, whose
geometry coordinates are exactly `[-77.3092, 39.35986]` (longitude
first), and whose `HEALTHCARD_URL` property is
`data/healthcards/LMON-345-R-2016.html`. -/
theorem C6_stub_geojson :
    geoOutcome [⟨"HealthCard.html", true, "Site LMON-345-R-2016 x"⟩]
        (some (39.35986 : ℚ)) (some (-77.3092 : ℚ)) "T" =
      some (GeoWrite.stub 39.35986 (-77.3092)
        [("SITEYR", PropVal.str "LMON-345-R-2016")]
        "data/healthcards/LMON-345-R-2016.html") ∧
    (write_sites_geojson 39.35986 (-77.3092)
        [("SITEYR", PropVal.str "LMON-345-R-2016")]
        "data/healthcards/LMON-345-R-2016.html").fcType = "FeatureCollection" ∧
    (write_sites_geojson 39.35986 (-77.3092)
        [("SITEYR", PropVal.str "LMON-345-R-2016")]
        "data/healthcards/LMON-345-R-2016.html").features.length = 1 ∧
    ((write_sites_geojson 39.35986 (-77.3092)
        [("SITEYR", PropVal.str "LMON-345-R-2016")]
        "data/healthcards/LMON-345-R-2016.html").features.map Feature.coordinates) =
      [[-77.3092, 39.35986]] ∧
    ((write_sites_geojson 39.35986 (-77.3092)
        [("SITEYR", PropVal.str "LMON-345-R-2016")]
        "data/healthcards/LMON-345-R-2016.html").features.map
          (fun f => lookupProp f "HEALTHCARD_URL")) =
      [some (PropVal.str "data/healthcards/LMON-345-R-2016.html")] :=
  ⟨rfl, rfl, rfl, rfl, rfl⟩

/-- C7 (amended): when the source bundle provides no root `sites.geojson`
and no coordinates are supplied, the run writes nothing at all to the
destination geospatial index (it only prints warnings); no empty
collection is ever synthesized. -/
theorem C7_nothing_written (b : List SrcFile) (stamp : String)
    (h : rootSitesGeojson b = none) :
    geoOutcome b none none stamp = none := by
  unfold geoOutcome multiGeo
  cases hf : find_one_healthcard_html b with
  | none => rw [h]
  | some f =>
    dsimp only
    by_cases hc : HTML_NAMES.contains f.name = true
    · rw [if_pos hc]
    · rw [if_neg hc, h]

/-- C7 witness: a concrete geojson-free bundle with no coordinates leaves
the destination index untouched. -/
theorem C7_nothing_written_witness :
    geoOutcome [⟨"a.html", true, "x"⟩] none none "S" = none :=
  C7_nothing_written [⟨"a.html", true, "x"⟩] "S" (by decide)

/-- C7 counterexample: at a concrete bundle with no geospatial record and
no coordinates (in multi-report mode), the run writes nothing — refuting
"Materialization writes an empty-but-valid zero-point FeatureCollection
to the destination geospatial index". -/
theorem C7_counterexample :
    geoOutcome [⟨"card.html", false, "y"⟩, ⟨"p.png", false, "i"⟩] none none "S" = none := by
  decide

/-- C8 (amended): `copy_file` performs at most one copy attempt — it skips
the copy when source and destination are the same file, and otherwise
calls `shutil.copy2` exactly once with no sleeps; when the destination is
locked the exception propagates with its message unchanged. -/
theorem C8_copy_single_attempt (samefile destLocked : Bool) (e : String)
    (h : samefile = false) :
    (copy_file samefile destLocked e).copyAttempts = 1 ∧
    (copy_file samefile destLocked e).sleepCalls = 0 ∧
    (destLocked = true →
      (copy_file samefile destLocked e).result = CopyResult.raised e) := by
  subst h
  cases destLocked <;> simp [copy_file]

/-- C8 witness: the locked-destination case at concrete inputs. -/
theorem C8_copy_single_attempt_witness :
    (copy_file false true "locked").copyAttempts = 1 ∧
    (copy_file false true "locked").sleepCalls = 0 ∧
    (true = true → (copy_file false true "locked").result = CopyResult.raised "locked") :=
  C8_copy_single_attempt false true "locked" rfl

/-- C8 counterexample: with a locked destination, the copy is attempted
exactly once, zero sleeps occur, and the surfaced error is the raw OS
message with no added remediation text — refuting "retried exactly a
fixed configured number of times with a fixed short delay ... error ...
includes remediation guidance text". -/
theorem C8_counterexample :
    copy_file false true "PermissionError WinError 32" =
      { copyAttempts := 1, sleepCalls := 0,
        result := CopyResult.raised "PermissionError WinError 32" } := by
  decide

/-- C3 (amended): a source `sites.geojson` is copied verbatim to the
destination exactly when the run is in multi-report mode and the record
sits at the bundle root; in single-report mode a source record is
ignored (explicit coordinates synthesize a stub instead), and no `data/`
or recursive search occurs. -/
theorem C3_verbatim_copy (b : List SrcFile) (lat lon : Option ℚ) (stamp : String) :
    ∀ g, geoOutcome b lat lon stamp = some (GeoWrite.copied g) ↔
      (chooseMode b = SyncMode.multiSite ∧ rootSitesGeojson b = some g) := by
  intro g
  unfold geoOutcome chooseMode multiGeo
  cases hf : find_one_healthcard_html b with
  | none =>
    dsimp only
    cases hg : rootSitesGeojson b with
    | some g0 => simp
    | none =>
      cases lat with
      | none => simp
      | some la => cases lon <;> simp
  | some f =>
    dsimp only
    by_cases hc : HTML_NAMES.contains f.name = true
    · simp only [hc, if_true]
      cases lat with
      | none => simp
      | some la => cases lon <;> simp
    · simp only [hc, if_false, Bool.false_eq_true]
      cases hg : rootSitesGeojson b with
      | some g0 => simp
      | none =>
        cases lat with
        | none => simp
        | some la => cases lon <;> simp

/-- C3 witness: a multi-report bundle with a root `sites.geojson` gets it
copied verbatim. -/
theorem C3_verbatim_copy_witness :
    geoOutcome [⟨"p.png", false, "i"⟩, ⟨"sites.geojson", true, "G"⟩] none none "S" =
      some (GeoWrite.copied "G") :=
  (C3_verbatim_copy [⟨"p.png", false, "i"⟩, ⟨"sites.geojson", true, "G"⟩] none none "S"
      "G").mpr ⟨by decide, by decide⟩

/-- C3 counterexample: a single-report bundle carrying a root
`sites.geojson` together with explicit coordinates gets a synthesized
stub, not the verbatim copy — refuting "this always takes precedence over
synthesizing a stub ... in both single-report and multi-report mode". -/
theorem C3_counterexample :
    rootSitesGeojson [⟨"HealthCard.html", true, "doc"⟩, ⟨"sites.geojson", true, "GEO"⟩] =
        some "GEO" ∧
      geoOutcome [⟨"HealthCard.html", true, "doc"⟩, ⟨"sites.geojson", true, "GEO"⟩]
          (some 1) (some 2) "S" =
        some (GeoWrite.stub 1 2 [] "data/healthcards/SITE-S.html") :=
  ⟨by decide, rfl⟩

/-- C4 (amended): Discovery first takes a root file whose name matches one
of the four canonical variants exactly; failing that, the first `*.html`
file in traversal order whose text contains the title marker OR all three
of the tokens "BIBI", "FIBI" and "Watershed context"; failing that,
none. -/
theorem C4_discovery (b : List SrcFile) :
    (∀ f, find_one_healthcard_html b = some f →
      f ∈ b ∧
        ((f.atRoot = true ∧ f.name ∈ HTML_NAMES) ∨
         (CanonicalFree b ∧ endsWithL ((".html").data) f.name.data = true ∧
          ReportSignature f.text ∧
          ∃ pre suf, b = pre ++ f :: suf ∧
            ∀ g ∈ pre, ¬(endsWithL ((".html").data) g.name.data = true ∧
              ReportSignature g.text)))) ∧
    (find_one_healthcard_html b = none ↔
      (CanonicalFree b ∧
       ∀ f ∈ b, ¬(endsWithL ((".html").data) f.name.data = true ∧
         ReportSignature f.text))) := by
  unfold find_one_healthcard_html
  cases hc : HTML_NAMES.findSome? (fun n => b.find? (fun f => f.atRoot && f.name == n)) with
  | some f0 =>
    dsimp only
    obtain ⟨l₁, n, l₂, hsplit, hfind, -⟩ := List.findSome?_eq_some_iff.mp hc
    have h1 := List.find?_some hfind
    have h2 := List.mem_of_find?_eq_some hfind
    rw [Bool.and_eq_true] at h1
    have hname : f0.name = n := by
      have h3 := h1.2
      rwa [beq_iff_eq] at h3
    have hmem : f0.name ∈ HTML_NAMES := by
      rw [hname, hsplit]
      exact List.mem_append.mpr (Or.inr (List.mem_cons_self _ _))
    constructor
    · intro f hf
      injection hf with hff
      subst hff
      exact ⟨h2, Or.inl ⟨h1.1, hmem⟩⟩
    · constructor
      · intro h; cases h
      · rintro ⟨hcf, -⟩
        exact absurd ⟨h1.1, hmem⟩ (hcf f0 h2)
  | none =>
    dsimp only
    have hcf : CanonicalFree b := by
      intro f hf hfc
      have hn := List.findSome?_eq_none_iff.mp hc f.name hfc.2
      have h3 := List.find?_eq_none.mp hn f hf
      apply h3
      rw [Bool.and_eq_true]
      exact ⟨hfc.1, beq_iff_eq.mpr rfl⟩
    rw [find?_filter_eq]
    cases hh : b.find?
        (fun f => endsWithL ((".html").data) f.name.data && isHealthcardText f.text) with
    | some f0 =>
      obtain ⟨hp, pre, suf, hb, hall⟩ := find?_some_decomp hh
      rw [Bool.and_eq_true] at hp
      have hmem0 : f0 ∈ b := by
        rw [hb]; exact List.mem_append.mpr (Or.inr (List.mem_cons_self _ _))
      constructor
      · intro f hf
        injection hf with hff
        subst hff
        refine ⟨hmem0,
          Or.inr ⟨hcf, hp.1, (isHealthcardText_iff _).mp hp.2, pre, suf, hb, ?_⟩⟩
        intro g hg hgc
        have hfalse := hall g hg
        have h3 : isHealthcardText g.text = true := (isHealthcardText_iff _).mpr hgc.2
        rw [hgc.1, h3] at hfalse
        simp at hfalse
      · constructor
        · intro h; cases h
        · rintro ⟨-, hno⟩
          exact absurd ⟨hp.1, (isHealthcardText_iff _).mp hp.2⟩ (hno f0 hmem0)
    | none =>
      constructor
      · intro f hf; cases hf
      · constructor
        · intro _
          refine ⟨hcf, ?_⟩
          intro f hf hfc
          have h3 := List.find?_eq_none.mp hh f hf
          apply h3
          rw [Bool.and_eq_true]
          exact ⟨hfc.1, (isHealthcardText_iff _).mpr hfc.2⟩
        · intro _; rfl

/-- C4 witness: on a bundle whose only file is a canonical root report,
the canonical branch of the discovery characterization applies. -/
theorem C4_discovery_witness :
    (⟨"HealthCard.html", true, "z"⟩ : SrcFile) ∈
        ([⟨"HealthCard.html", true, "z"⟩] : List SrcFile) ∧
      (((⟨"HealthCard.html", true, "z"⟩ : SrcFile).atRoot = true ∧
          (⟨"HealthCard.html", true, "z"⟩ : SrcFile).name ∈ HTML_NAMES) ∨
        (CanonicalFree [⟨"HealthCard.html", true, "z"⟩] ∧
         endsWithL ((".html").data)
           (⟨"HealthCard.html", true, "z"⟩ : SrcFile).name.data = true ∧
         ReportSignature (⟨"HealthCard.html", true, "z"⟩ : SrcFile).text ∧
         ∃ pre suf,
           ([⟨"HealthCard.html", true, "z"⟩] : List SrcFile) =
             pre ++ ⟨"HealthCard.html", true, "z"⟩ :: suf ∧
           ∀ g ∈ pre, ¬(endsWithL ((".html").data) g.name.data = true ∧
             ReportSignature g.text))) :=
  (C4_discovery [⟨"HealthCard.html", true, "z"⟩]).1
    ⟨"HealthCard.html", true, "z"⟩ (by decide)

/-- C4 counterexample: a root `report.html` containing only the title
marker is selected by the code (the signature is a disjunction), while
the claim's conjunctive selection (title marker AND both index tokens,
with canonical matching fully case-insensitive) selects nothing. -/
theorem C4_counterexample :
    find_one_healthcard_html [⟨"report.html", true, "MBSS HealthCard"⟩] =
        some ⟨"report.html", true, "MBSS HealthCard"⟩ ∧
      discoveryClaim_C4 [⟨"report.html", true, "MBSS HealthCard"⟩] = none := by
  decide

/-- C10 (amended): in multi-report mode with no root `sites.geojson` and
coordinates supplied, the stub's report URL is
`data/healthcards/SITE-<stamp>.html` when at least one HTML file is
copied — a name the run writes only when some source file bears exactly
that basename — and the bare folder path `data/healthcards/` when zero
HTML files are copied. -/
theorem C10_multi_stub_url (b : List SrcFile) (la lo : ℚ) (stamp : String)
    (hmode : chooseMode b = SyncMode.multiSite) (hgeo : rootSitesGeojson b = none) :
    geoOutcome b (some la) (some lo) stamp =
      some (GeoWrite.stub la lo []
        ("data/healthcards/" ++
          (if htmlCount b = 0 then "" else "SITE-" ++ stamp ++ ".html"))) ∧
    (htmlCount b = 0 →
      geoOutcome b (some la) (some lo) stamp =
        some (GeoWrite.stub la lo [] "data/healthcards/")) ∧
    (("SITE-" ++ stamp ++ ".html") ∈ multiHtmlNames b ↔
      ∃ f, f ∈ b ∧ isHtmlMulti f = true ∧ f.name = "SITE-" ++ stamp ++ ".html") := by
  have hmain : geoOutcome b (some la) (some lo) stamp =
      some (GeoWrite.stub la lo []
        ("data/healthcards/" ++
          (if htmlCount b = 0 then "" else "SITE-" ++ stamp ++ ".html"))) := by
    unfold geoOutcome multiGeo
    unfold chooseMode at hmode
    cases hf : find_one_healthcard_html b with
    | none => rw [hgeo]
    | some f =>
      rw [hf] at hmode
      dsimp only at hmode ⊢
      by_cases hc : HTML_NAMES.contains f.name = true
      · rw [if_pos hc] at hmode; cases hmode
      · rw [if_neg hc, hgeo]
  refine ⟨hmain, ?_, ?_⟩
  · intro h0
    rw [hmain]
    simp [h0]
  · simp [multiHtmlNames, List.mem_map, List.mem_filter, and_assoc]

/-- C10 witness: a concrete signature-free bundle in multi-report mode
with one HTML file. -/
theorem C10_multi_stub_url_witness :
    geoOutcome [⟨"a.html", false, "hi"⟩] (some 1) (some 2) "20250102030405" =
      some (GeoWrite.stub 1 2 []
        ("data/healthcards/" ++
          (if htmlCount [⟨"a.html", false, "hi"⟩] = 0 then ""
           else "SITE-" ++ "20250102030405" ++ ".html"))) ∧
    (htmlCount [⟨"a.html", false, "hi"⟩] = 0 →
      geoOutcome [⟨"a.html", false, "hi"⟩] (some 1) (some 2) "20250102030405" =
        some (GeoWrite.stub 1 2 [] "data/healthcards/")) ∧
    (("SITE-" ++ "20250102030405" ++ ".html") ∈ multiHtmlNames [⟨"a.html", false, "hi"⟩] ↔
      ∃ f, f ∈ ([⟨"a.html", false, "hi"⟩] : List SrcFile) ∧ isHtmlMulti f = true ∧
        f.name = "SITE-" ++ "20250102030405" ++ ".html") :=
  C10_multi_stub_url [⟨"a.html", false, "hi"⟩] 1 2 "20250102030405" (by decide) (by decide)

/-- C10 counterexample: when a source file is named exactly
`SITE-<stamp>.html`, the multi-report run does write a file of that name
(it copies the source file), so the stub URL does not name a
never-written file — refuting "a freshly timestamped file ... that the
run never writes". -/
theorem C10_counterexample :
    geoOutcome [⟨"SITE-20250101000000.html", true, "x"⟩] (some 1) (some 2)
        "20250101000000" =
      some (GeoWrite.stub 1 2 [] "data/healthcards/SITE-20250101000000.html") ∧
    "SITE-20250101000000.html" ∈ multiHtmlNames [⟨"SITE-20250101000000.html", true, "x"⟩] :=
  ⟨rfl, by decide⟩
